import Mathlib

/-!
Verification of the MCP dynamic tool-adaptation layer
(`mcp_client/util.py`, `mcp_client/agent_tools.py`).

JSON values are modelled by the inductive type `Json` (Python dicts become
association lists that preserve insertion order, as Python dicts do).
Numbers are modelled as integers: no claim depends on floating point.
-/

inductive Json where
  | null : Json
  | bool (b : Bool) : Json
  | num (n : Int) : Json
  | str (s : String) : Json
  | arr (xs : List Json) : Json
  | obj (fields : List (String × Json)) : Json

mutual

def Json.decEq : (a b : Json) → Decidable (a = b)
  | .null, .null => isTrue rfl
  | .bool a, .bool b =>
    if h : a = b then isTrue (by rw [h]) else isFalse (by intro hh; injection hh; contradiction)
  | .num a, .num b =>
    if h : a = b then isTrue (by rw [h]) else isFalse (by intro hh; injection hh; contradiction)
  | .str a, .str b =>
    if h : a = b then isTrue (by rw [h]) else isFalse (by intro hh; injection hh; contradiction)
  | .arr a, .arr b =>
    match Json.decEqList a b with
    | isTrue h => isTrue (by rw [h])
    | isFalse h => isFalse (by intro hh; injection hh; contradiction)
  | .obj a, .obj b =>
    match Json.decEqObj a b with
    | isTrue h => isTrue (by rw [h])
    | isFalse h => isFalse (by intro hh; injection hh; contradiction)
  | .null, .bool _ => isFalse (by intro h; exact Json.noConfusion h)
  | .null, .num _ => isFalse (by intro h; exact Json.noConfusion h)
  | .null, .str _ => isFalse (by intro h; exact Json.noConfusion h)
  | .null, .arr _ => isFalse (by intro h; exact Json.noConfusion h)
  | .null, .obj _ => isFalse (by intro h; exact Json.noConfusion h)
  | .bool _, .null => isFalse (by intro h; exact Json.noConfusion h)
  | .bool _, .num _ => isFalse (by intro h; exact Json.noConfusion h)
  | .bool _, .str _ => isFalse (by intro h; exact Json.noConfusion h)
  | .bool _, .arr _ => isFalse (by intro h; exact Json.noConfusion h)
  | .bool _, .obj _ => isFalse (by intro h; exact Json.noConfusion h)
  | .num _, .null => isFalse (by intro h; exact Json.noConfusion h)
  | .num _, .bool _ => isFalse (by intro h; exact Json.noConfusion h)
  | .num _, .str _ => isFalse (by intro h; exact Json.noConfusion h)
  | .num _, .arr _ => isFalse (by intro h; exact Json.noConfusion h)
  | .num _, .obj _ => isFalse (by intro h; exact Json.noConfusion h)
  | .str _, .null => isFalse (by intro h; exact Json.noConfusion h)
  | .str _, .bool _ => isFalse (by intro h; exact Json.noConfusion h)
  | .str _, .num _ => isFalse (by intro h; exact Json.noConfusion h)
  | .str _, .arr _ => isFalse (by intro h; exact Json.noConfusion h)
  | .str _, .obj _ => isFalse (by intro h; exact Json.noConfusion h)
  | .arr _, .null => isFalse (by intro h; exact Json.noConfusion h)
  | .arr _, .bool _ => isFalse (by intro h; exact Json.noConfusion h)
  | .arr _, .num _ => isFalse (by intro h; exact Json.noConfusion h)
  | .arr _, .str _ => isFalse (by intro h; exact Json.noConfusion h)
  | .arr _, .obj _ => isFalse (by intro h; exact Json.noConfusion h)
  | .obj _, .null => isFalse (by intro h; exact Json.noConfusion h)
  | .obj _, .bool _ => isFalse (by intro h; exact Json.noConfusion h)
  | .obj _, .num _ => isFalse (by intro h; exact Json.noConfusion h)
  | .obj _, .str _ => isFalse (by intro h; exact Json.noConfusion h)
  | .obj _, .arr _ => isFalse (by intro h; exact Json.noConfusion h)

def Json.decEqList : (a b : List Json) → Decidable (a = b)
  | [], [] => isTrue rfl
  | [], _ :: _ => isFalse (by intro h; exact List.noConfusion h)
  | _ :: _, [] => isFalse (by intro h; exact List.noConfusion h)
  | x :: xs, y :: ys =>
    match Json.decEq x y with
    | isTrue h1 =>
      match Json.decEqList xs ys with
      | isTrue h2 => isTrue (by rw [h1, h2])
      | isFalse h2 => isFalse (by intro hh; injection hh; contradiction)
    | isFalse h1 => isFalse (by intro hh; injection hh; contradiction)

def Json.decEqObj : (a b : List (String × Json)) → Decidable (a = b)
  | [], [] => isTrue rfl
  | [], _ :: _ => isFalse (by intro h; exact List.noConfusion h)
  | _ :: _, [] => isFalse (by intro h; exact List.noConfusion h)
  | (k1, v1) :: xs, (k2, v2) :: ys =>
    if hk : k1 = k2 then
      match Json.decEq v1 v2 with
      | isTrue hv =>
        match Json.decEqObj xs ys with
        | isTrue ht => isTrue (by rw [hk, hv, ht])
        | isFalse ht => isFalse (by intro hh; injection hh; contradiction)
      | isFalse hv =>
        isFalse (by intro hh; injection hh with h1 h2; injection h1; contradiction)
    else
      isFalse (by intro hh; injection hh with h1 h2; injection h1; contradiction)

end

instance : DecidableEq Json := Json.decEq

namespace Json

/-- Python truthiness of a JSON value (`None`, `False`, `0`, `""`, `[]`, `{}`
are falsy). Used to model `x or {}` and `x or "string"` in the source. -/
def pythonFalsy : Json → Bool
  | .null => true
  | .bool b => !b
  | .num n => n == 0
  | .str s => s.isEmpty
  | .arr xs => xs.isEmpty
  | .obj l => l.isEmpty

def isNull : Json → Bool
  | .null => true
  | _ => false

end Json

/-- First-occurrence lookup in an association list, modelling Python `d[k]`
and `k in d` on a dict (dict keys are unique, so first occurrence is the
entry). -/
def lookupKey (l : List (String × Json)) (k : String) : Option Json :=
  match l with
  | [] => none
  | (k', v) :: t => if k' = k then some v else lookupKey t k

/-- `d.get(k, default)` in Python: the stored value when the key is present
(even when that value is `None`), the default otherwise. -/
def getD (l : List (String × Json)) (k : String) (d : Json) : Json :=
  (lookupKey l k).getD d

/-- `d.get(k) is None` in Python: true when the key is absent or its value is
JSON null. -/
def getIsNone (l : List (String × Json)) (k : String) : Bool :=
  match lookupKey l k with
  | none => true
  | some .null => true
  | some _ => false

/-- `d[k] = v` on a Python dict: overwriting an existing key keeps its
position, a new key is appended at the end (insertion order). -/
def setKey (l : List (String × Json)) (k : String) (v : Json) : List (String × Json) :=
  match l with
  | [] => [(k, v)]
  | (k', v') :: t => if k' = k then (k, v) :: t else (k', v') :: setKey t k v

@[simp] theorem lookupKey_nil (k : String) : lookupKey [] k = none := rfl

@[simp] theorem lookupKey_cons (k' k : String) (v : Json) (t : List (String × Json)) :
    lookupKey ((k', v) :: t) k = if k' = k then some v else lookupKey t k := rfl

@[simp] theorem setKey_nil (k : String) (v : Json) : setKey [] k v = [(k, v)] := rfl

theorem lookupKey_setKey_self (l : List (String × Json)) (k : String) (v : Json) :
    lookupKey (setKey l k v) k = some v := by
  induction l with
  | nil => simp [setKey]
  | cons hd t ih =>
    obtain ⟨k', v'⟩ := hd
    by_cases h : k' = k
    · simp [setKey, h]
    · simp [setKey, h, ih]

theorem lookupKey_setKey_ne (l : List (String × Json)) (k k' : String) (v : Json)
    (h : k ≠ k') : lookupKey (setKey l k v) k' = lookupKey l k' := by
  induction l with
  | nil => simp [setKey, h]
  | cons hd t ih =>
    obtain ⟨k0, v0⟩ := hd
    by_cases h0 : k0 = k
    · subst h0; simp [setKey, h]
    · simp [setKey, h0, ih]

theorem setKey_of_lookupKey (l : List (String × Json)) (k : String) (v : Json)
    (h : lookupKey l k = some v) : setKey l k v = l := by
  induction l with
  | nil => simp [lookupKey] at h
  | cons hd t ih =>
    obtain ⟨k0, v0⟩ := hd
    by_cases h0 : k0 = k
    · subst h0
      simp [lookupKey] at h
      simp [setKey, h]
    · simp [lookupKey, h0] at h
      simp [setKey, h0, ih h]

theorem getIsNone_eq_false_of_lookup (l : List (String × Json)) (k : String) (v : Json)
    (h : lookupKey l k = some v) (hv : v ≠ Json.null) : getIsNone l k = false := by
  unfold getIsNone
  rw [h]
  cases v <;> simp_all

/-! ## Schema Normalizer (`MCPUtil._normalize_json_schema`, util.py lines 86-110) -/

/-- `if d.get(k) is None: d[k] = v` — default a missing or null key. -/
def defaultKey (l : List (String × Json)) (k : String) (v : Json) : List (String × Json) :=
  if getIsNone l k then setKey l k v else l

/-- The array-items step of per-property normalization (util.py lines
102-108): when the property's `type` is `"array"`, ensure `items` is a
mapping whose `type` is non-null (defaulting to `"string"`). -/
def fixItems (p1 : List (String × Json)) : List (String × Json) :=
  if lookupKey p1 "type" = some (Json.str "array") then
    match lookupKey p1 "items" with
    | some (.obj its) =>
        if getIsNone its "type" then
          setKey p1 "items" (Json.obj (setKey its "type" (Json.str "string")))
        else p1
    | _ => setKey p1 "items" (Json.obj [("type", Json.str "string")])
  else p1

/-- Per-property normalization of a property whose value is a mapping
(the body of the `for key, prop in list(props.items())` loop for the
`isinstance(prop, dict)` case): default a missing/null `type` to `"string"`,
then fix array items. -/
def normPropDict (p : List (String × Json)) : List (String × Json) :=
  fixItems (defaultKey p "type" (Json.str "string"))

/-- One entry of the properties mapping after normalization: a non-mapping
property value is replaced by `{"type": "string"}`, a mapping is normalized
by `normPropDict`. -/
def normPropEntry (v : Json) : Json :=
  match v with
  | .obj p => .obj (normPropDict p)
  | _ => .obj [("type", Json.str "string")]

/-- The entries of a JSON mapping (`dict(schema) if isinstance(schema, dict)
else {}`). -/
def schemaEntries : Json → List (String × Json)
  | .obj l => l
  | _ => []

/-- Root fix-up of `_normalize_json_schema` (util.py lines 89-93): default a
missing/null root `type` to `"object"` and replace a missing or non-mapping
`properties` by `{}`. -/
def normRoot (schema : Json) : List (String × Json) :=
  match lookupKey (defaultKey (schemaEntries schema) "type" (Json.str "object")) "properties" with
  | some (.obj _) => defaultKey (schemaEntries schema) "type" (Json.str "object")
  | _ => setKey (defaultKey (schemaEntries schema) "type" (Json.str "object"))
      "properties" (Json.obj [])

/-- The entries of the `properties` mapping after the root fix-up. -/
def normProps (schema : Json) : List (String × Json) :=
  match lookupKey (normRoot schema) "properties" with
  | some (.obj ps) => ps
  | _ => []

/-- `MCPUtil._normalize_json_schema` (util.py lines 86-110): the returned
value. A non-dict schema becomes `{}`; a missing/null root `type` becomes
`"object"`; a missing or non-mapping `properties` becomes `{}`; each
property entry is normalized by `normPropEntry`. -/
def _normalize_json_schema (schema : Json) : Json :=
  Json.obj (setKey (normRoot schema) "properties"
    (Json.obj ((normProps schema).map (fun kv => (kv.1, normPropEntry kv.2)))))

/-! ## Normalization invariants -/

/-- A property entry is well-normalized: it is a mapping with a non-null
`type`, and when that type is `"array"` its `items` is a mapping with a
non-null `type`. -/
def propOk (v : Json) : Bool :=
  match v with
  | .obj p =>
    !(getIsNone p "type") &&
      (if lookupKey p "type" = some (Json.str "array") then
        match lookupKey p "items" with
        | some (.obj its) => !(getIsNone its "type")
        | _ => false
      else true)
  | _ => false

/-- The guarantee the spec states for `NormalizedSchema`: the value is a
mapping with a non-null root `type`, `properties` is a mapping, and every
property entry satisfies `propOk`. -/
def normalizedOk (s : Json) : Bool :=
  match s with
  | .obj l =>
    !(getIsNone l "type") &&
      (match lookupKey l "properties" with
       | some (.obj ps) => ps.all (fun kv => propOk kv.2)
       | _ => false)
  | _ => false

theorem getIsNone_setKey_ne (l : List (String × Json)) (k k' : String) (v : Json)
    (h : k ≠ k') : getIsNone (setKey l k v) k' = getIsNone l k' := by
  unfold getIsNone
  rw [lookupKey_setKey_ne l k k' v h]

theorem getIsNone_setKey_str (l : List (String × Json)) (k : String) (s : String) :
    getIsNone (setKey l k (Json.str s)) k = false := by
  unfold getIsNone
  rw [lookupKey_setKey_self]

theorem defaultKey_getIsNone_str (l : List (String × Json)) (k : String) (s : String) :
    getIsNone (defaultKey l k (Json.str s)) k = false := by
  unfold defaultKey
  by_cases h : getIsNone l k
  · simp [h, getIsNone_setKey_str]
  · simp [h]

theorem defaultKey_of_false (l : List (String × Json)) (k : String) (v : Json)
    (h : getIsNone l k = false) : defaultKey l k v = l := by
  simp [defaultKey, h]

theorem defaultKey_lookup_ne (l : List (String × Json)) (k k' : String) (v : Json)
    (h : k ≠ k') : lookupKey (defaultKey l k v) k' = lookupKey l k' := by
  unfold defaultKey
  by_cases h0 : getIsNone l k
  · simp [h0, lookupKey_setKey_ne l k k' v h]
  · simp [h0]

theorem fixItems_lookup_type (p : List (String × Json)) :
    lookupKey (fixItems p) "type" = lookupKey p "type" := by
  unfold fixItems
  split
  · split
    · split
      · rw [lookupKey_setKey_ne]
        decide
      · rfl
    · rw [lookupKey_setKey_ne]
      decide
  · rfl

theorem fixItems_items_ok (p : List (String × Json))
    (h : lookupKey p "type" = some (Json.str "array")) :
    ∃ its, lookupKey (fixItems p) "items" = some (Json.obj its) ∧
      getIsNone its "type" = false := by
  unfold fixItems
  rw [if_pos h]
  split
  next its hits =>
    by_cases h2 : getIsNone its "type"
    · rw [if_pos h2]
      exact ⟨setKey its "type" (Json.str "string"), lookupKey_setKey_self _ _ _,
        getIsNone_setKey_str _ _ _⟩
    · rw [if_neg h2]
      exact ⟨its, hits, by simpa using h2⟩
  next hnot =>
    exact ⟨[("type", Json.str "string")], lookupKey_setKey_self _ _ _, by decide⟩

theorem fixItems_not_array (p : List (String × Json))
    (h : ¬ lookupKey p "type" = some (Json.str "array")) : fixItems p = p := by
  simp [fixItems, h]

theorem fixItems_of_ok (q its : List (String × Json))
    (ht : lookupKey q "type" = some (Json.str "array"))
    (hi : lookupKey q "items" = some (Json.obj its))
    (hok : getIsNone its "type" = false) : fixItems q = q := by
  unfold fixItems
  rw [if_pos ht, hi]
  simp [hok]

theorem fixItems_idem (p : List (String × Json)) :
    fixItems (fixItems p) = fixItems p := by
  by_cases h : lookupKey p "type" = some (Json.str "array")
  · have htype : lookupKey (fixItems p) "type" = some (Json.str "array") := by
      rw [fixItems_lookup_type]; exact h
    obtain ⟨its, hits, hok⟩ := fixItems_items_ok p h
    exact fixItems_of_ok _ its htype hits hok
  · have h2 : ¬ lookupKey (fixItems p) "type" = some (Json.str "array") := by
      rw [fixItems_lookup_type]; exact h
    rw [fixItems_not_array _ h2]

theorem normPropDict_type_nonnull (p : List (String × Json)) :
    getIsNone (normPropDict p) "type" = false := by
  unfold normPropDict
  unfold getIsNone
  rw [fixItems_lookup_type]
  have := defaultKey_getIsNone_str p "type" "string"
  unfold getIsNone at this
  exact this

theorem normPropDict_idem (p : List (String × Json)) :
    normPropDict (normPropDict p) = normPropDict p := by
  unfold normPropDict
  rw [defaultKey_of_false]
  · exact fixItems_idem _
  · have := normPropDict_type_nonnull p
    unfold normPropDict at this
    exact this

theorem propOk_obj_eq (p : List (String × Json)) : propOk (Json.obj p) =
    (!(getIsNone p "type") &&
      (if lookupKey p "type" = some (Json.str "array") then
        match lookupKey p "items" with
        | some (.obj its) => !(getIsNone its "type")
        | _ => false
      else true)) := rfl

theorem propOk_normPropDict (p : List (String × Json)) :
    propOk (Json.obj (normPropDict p)) = true := by
  rw [propOk_obj_eq, normPropDict_type_nonnull]
  simp only [Bool.not_false, Bool.true_and]
  by_cases h : lookupKey (normPropDict p) "type" = some (Json.str "array")
  · rw [if_pos h]
    have harr : lookupKey (defaultKey p "type" (Json.str "string")) "type"
        = some (Json.str "array") := by
      have h2 := fixItems_lookup_type (defaultKey p "type" (Json.str "string"))
      unfold normPropDict at h
      rw [h2] at h
      exact h
    obtain ⟨its, hits, hok⟩ := fixItems_items_ok _ harr
    have hits' : lookupKey (normPropDict p) "items" = some (Json.obj its) := hits
    rw [hits']
    simp [hok]
  · rw [if_neg h]

theorem propOk_normPropEntry (v : Json) : propOk (normPropEntry v) = true := by
  cases v with
  | obj p => exact propOk_normPropDict p
  | null => rfl
  | bool b => rfl
  | num n => rfl
  | str s => rfl
  | arr xs => rfl

theorem normPropEntry_idem (v : Json) : normPropEntry (normPropEntry v) = normPropEntry v := by
  cases v with
  | obj p =>
    show Json.obj (normPropDict (normPropDict p)) = Json.obj (normPropDict p)
    rw [normPropDict_idem]
  | null => rfl
  | bool b => rfl
  | num n => rfl
  | str s => rfl
  | arr xs => rfl

theorem normRoot_type_nonnull (s : Json) : getIsNone (normRoot s) "type" = false := by
  unfold normRoot
  split
  · exact defaultKey_getIsNone_str _ _ _
  · rw [getIsNone_setKey_ne _ _ _ _ (by decide)]
    exact defaultKey_getIsNone_str _ _ _

theorem normRoot_props_ex (s : Json) :
    ∃ ps, lookupKey (normRoot s) "properties" = some (Json.obj ps) := by
  unfold normRoot
  split
  next h => exact ⟨_, h⟩
  next => exact ⟨[], lookupKey_setKey_self _ _ _⟩

theorem normRoot_props (s : Json) :
    lookupKey (normRoot s) "properties" = some (Json.obj (normProps s)) := by
  obtain ⟨ps, h⟩ := normRoot_props_ex s
  unfold normProps
  rw [h]

theorem normalize_obj_of_ok (l ps : List (String × Json))
    (htype : getIsNone l "type" = false)
    (hprops : lookupKey l "properties" = some (Json.obj ps)) :
    _normalize_json_schema (Json.obj l) =
      Json.obj (setKey l "properties"
        (Json.obj (ps.map (fun kv => (kv.1, normPropEntry kv.2))))) := by
  have h1 : normRoot (Json.obj l) = l := by
    unfold normRoot
    have hd : defaultKey (schemaEntries (Json.obj l)) "type" (Json.str "object") = l :=
      defaultKey_of_false _ _ _ htype
    rw [hd, hprops]
  have h2 : normProps (Json.obj l) = ps := by
    unfold normProps
    rw [h1, hprops]
  unfold _normalize_json_schema
  rw [h1, h2]

theorem map_normPropEntry_idem (l : List (String × Json)) :
    (l.map (fun kv => (kv.1, normPropEntry kv.2))).map (fun kv => (kv.1, normPropEntry kv.2))
      = l.map (fun kv => (kv.1, normPropEntry kv.2)) := by
  induction l with
  | nil => rfl
  | cons hd t ih => simp [normPropEntry_idem, ih]

theorem normalizedOk_obj_eq (l : List (String × Json)) : normalizedOk (Json.obj l) =
    (!(getIsNone l "type") &&
      (match lookupKey l "properties" with
       | some (.obj ps) => ps.all (fun kv => propOk kv.2)
       | _ => false)) := rfl

theorem all_propOk_map (l : List (String × Json)) :
    (l.map (fun kv => (kv.1, normPropEntry kv.2))).all (fun kv => propOk kv.2) = true := by
  induction l with
  | nil => rfl
  | cons hd t ih => simp [propOk_normPropEntry, ih]

/-- Shared result: the normalizer always produces a well-normalized schema. -/
theorem normalize_normalizedOk (s : Json) :
    normalizedOk (_normalize_json_schema s) = true := by
  unfold _normalize_json_schema
  rw [normalizedOk_obj_eq]
  rw [getIsNone_setKey_ne _ _ _ _ (by decide), normRoot_type_nonnull]
  rw [lookupKey_setKey_self]
  show (!false &&
    ((normProps s).map (fun kv => (kv.1, normPropEntry kv.2))).all (fun kv => propOk kv.2)) = true
  rw [all_propOk_map]
  rfl

/-- C4: schema normalization is idempotent — for every input schema `S`,
`normalize(normalize(S)) = normalize(S)`. -/
theorem normalize_idempotent (s : Json) :
    _normalize_json_schema (_normalize_json_schema s) = _normalize_json_schema s := by
  have e1 : _normalize_json_schema s =
      Json.obj (setKey (normRoot s) "properties"
        (Json.obj ((normProps s).map (fun kv => (kv.1, normPropEntry kv.2))))) := rfl
  rw [e1]
  have htype : getIsNone (setKey (normRoot s) "properties"
      (Json.obj ((normProps s).map (fun kv => (kv.1, normPropEntry kv.2))))) "type" = false := by
    rw [getIsNone_setKey_ne _ _ _ _ (by decide)]
    exact normRoot_type_nonnull s
  have hprops : lookupKey (setKey (normRoot s) "properties"
      (Json.obj ((normProps s).map (fun kv => (kv.1, normPropEntry kv.2))))) "properties"
      = some (Json.obj ((normProps s).map (fun kv => (kv.1, normPropEntry kv.2)))) :=
    lookupKey_setKey_self _ _ _
  rw [normalize_obj_of_ok _ _ htype hprops]
  rw [map_normPropEntry_idem]
  rw [setKey_of_lookupKey _ _ _ hprops]

theorem normRoot_lookup_type (s : Json) :
    lookupKey (normRoot s) "type"
      = lookupKey (defaultKey (schemaEntries s) "type" (Json.str "object")) "type" := by
  unfold normRoot
  split
  · rfl
  · exact lookupKey_setKey_ne _ _ _ _ (by decide)

theorem normPropDict_type_default (p : List (String × Json))
    (h : getIsNone p "type" = true) :
    lookupKey (normPropDict p) "type" = some (Json.str "string") := by
  unfold normPropDict
  rw [fixItems_lookup_type]
  unfold defaultKey
  rw [if_pos h]
  exact lookupKey_setKey_self _ _ _

/-- For an array-typed property, a missing or non-mapping `items` is
replaced by `{"type": "string"}`, and a mapping `items` with a missing or
null `type` gains `"type": "string"` (util.py lines 103-108). -/
theorem normPropDict_array_items_default (p : List (String × Json))
    (ht : lookupKey p "type" = some (Json.str "array")) :
    ((∀ its, lookupKey p "items" ≠ some (Json.obj its)) →
      lookupKey (normPropDict p) "items" = some (Json.obj [("type", Json.str "string")]))
    ∧ (∀ its, lookupKey p "items" = some (Json.obj its) → getIsNone its "type" = true →
      lookupKey (normPropDict p) "items"
        = some (Json.obj (setKey its "type" (Json.str "string")))) := by
  have hp1 : defaultKey p "type" (Json.str "string") = p :=
    defaultKey_of_false _ _ _
      (getIsNone_eq_false_of_lookup p "type" _ ht (fun h => Json.noConfusion h))
  constructor
  · intro hni
    unfold normPropDict
    rw [hp1]
    unfold fixItems
    rw [if_pos ht]
    cases hi : lookupKey p "items" with
    | none =>
      simp only [hi]
      exact lookupKey_setKey_self _ _ _
    | some v =>
      cases v with
      | obj its => exact absurd hi (hni its)
      | null => simp only [hi]; exact lookupKey_setKey_self _ _ _
      | bool b => simp only [hi]; exact lookupKey_setKey_self _ _ _
      | num n => simp only [hi]; exact lookupKey_setKey_self _ _ _
      | str s => simp only [hi]; exact lookupKey_setKey_self _ _ _
      | arr xs => simp only [hi]; exact lookupKey_setKey_self _ _ _
  · intro its hi hnone
    unfold normPropDict
    rw [hp1]
    unfold fixItems
    rw [if_pos ht]
    simp only [hi]
    rw [if_pos hnone]
    exact lookupKey_setKey_self _ _ _

theorem lookupKey_map_normPropEntry (ps : List (String × Json)) (k : String) (v : Json)
    (h : lookupKey ps k = some v) :
    lookupKey (ps.map (fun kv => (kv.1, normPropEntry kv.2))) k
      = some (normPropEntry v) := by
  induction ps with
  | nil => simp at h
  | cons kv t ih =>
    obtain ⟨k1, v1⟩ := kv
    by_cases hk : k1 = k
    · simp only [lookupKey, hk, if_pos] at h
      injection h with h1
      simp only [List.map_cons, lookupKey, hk, if_pos]
      rw [h1]
    · simp only [lookupKey, hk, if_neg, if_false] at h
      simp only [List.map_cons, lookupKey, hk, if_neg, if_false]
      exact ih h

theorem normProps_of_input (s : Json) (ps : List (String × Json))
    (h : lookupKey (schemaEntries s) "properties" = some (Json.obj ps)) :
    normProps s = ps := by
  have h1 : lookupKey (defaultKey (schemaEntries s) "type" (Json.str "object")) "properties"
      = some (Json.obj ps) := by
    rw [defaultKey_lookup_ne _ _ _ _ (by decide)]
    exact h
  have hroot : normRoot s = defaultKey (schemaEntries s) "type" (Json.str "object") := by
    unfold normRoot
    rw [h1]
  unfold normProps
  rw [hroot, h1]

/-- C8: for every input schema, including malformed ones, normalization
succeeds (it is a total function) and its output is a mapping such that:
the root `type` is non-null and equals `"object"` when the input's root
`type` was absent or null; `properties` is a mapping, empty when the
input's `properties` was absent or not a mapping; every property entry is a
mapping with a non-null `type`; a non-mapping input property value becomes
exactly `{"type": "string"}`; a mapping input property with absent/null
`type` gets `type = "string"`; and an array-typed property's `items`
defaults to a mapping with `type = "string"` — replaced wholesale when
absent or not a mapping, and given `"type": "string"` when a mapping
without a concrete type. -/
theorem normalize_total_guarantees (s : Json) :
    normalizedOk (_normalize_json_schema s) = true
    ∧ (getIsNone (schemaEntries s) "type" = true →
        lookupKey (schemaEntries (_normalize_json_schema s)) "type" = some (Json.str "object"))
    ∧ ((∀ ps, lookupKey (schemaEntries s) "properties" ≠ some (Json.obj ps)) →
        lookupKey (schemaEntries (_normalize_json_schema s)) "properties"
          = some (Json.obj []))
    ∧ (∀ ps, lookupKey (schemaEntries s) "properties" = some (Json.obj ps) →
        ∃ outPs, lookupKey (schemaEntries (_normalize_json_schema s)) "properties"
            = some (Json.obj outPs)
          ∧ (∀ k v, lookupKey ps k = some v → (∀ l2, v ≠ Json.obj l2) →
              lookupKey outPs k = some (Json.obj [("type", Json.str "string")]))
          ∧ (∀ k p, lookupKey ps k = some (Json.obj p) → getIsNone p "type" = true →
              lookupKey outPs k = some (Json.obj (normPropDict p))
              ∧ lookupKey (normPropDict p) "type" = some (Json.str "string"))
          ∧ (∀ k p, lookupKey ps k = some (Json.obj p) →
              lookupKey p "type" = some (Json.str "array") →
              lookupKey outPs k = some (Json.obj (normPropDict p))
              ∧ ((∀ its, lookupKey p "items" ≠ some (Json.obj its)) →
                  lookupKey (normPropDict p) "items"
                    = some (Json.obj [("type", Json.str "string")]))
              ∧ (∀ its, lookupKey p "items" = some (Json.obj its) →
                  getIsNone its "type" = true →
                  lookupKey (normPropDict p) "items"
                    = some (Json.obj (setKey its "type" (Json.str "string")))))) := by
  refine ⟨normalize_normalizedOk s, ?_, ?_, ?_⟩
  · intro h
    show lookupKey (setKey (normRoot s) "properties"
      (Json.obj ((normProps s).map (fun kv => (kv.1, normPropEntry kv.2))))) "type"
      = some (Json.str "object")
    rw [lookupKey_setKey_ne _ _ _ _ (by decide), normRoot_lookup_type]
    unfold defaultKey
    rw [if_pos h]
    exact lookupKey_setKey_self _ _ _
  · intro hp
    have hn1 : lookupKey (defaultKey (schemaEntries s) "type" (Json.str "object")) "properties"
        = lookupKey (schemaEntries s) "properties" :=
      defaultKey_lookup_ne _ _ _ _ (by decide)
    have hroot : normRoot s = setKey (defaultKey (schemaEntries s) "type" (Json.str "object"))
        "properties" (Json.obj []) := by
      unfold normRoot
      split
      next h => rw [hn1] at h; exact absurd h (hp _)
      next => rfl
    have hnp : normProps s = [] := by
      unfold normProps
      rw [hroot, lookupKey_setKey_self]
    show lookupKey (setKey (normRoot s) "properties"
      (Json.obj ((normProps s).map (fun kv => (kv.1, normPropEntry kv.2))))) "properties"
      = some (Json.obj [])
    rw [lookupKey_setKey_self, hnp]
    rfl
  · intro ps hps
    have hnp : normProps s = ps := normProps_of_input s ps hps
    refine ⟨(normProps s).map (fun kv => (kv.1, normPropEntry kv.2)), ?_, ?_, ?_, ?_⟩
    · show lookupKey (setKey (normRoot s) "properties"
        (Json.obj ((normProps s).map (fun kv => (kv.1, normPropEntry kv.2))))) "properties"
        = some (Json.obj ((normProps s).map (fun kv => (kv.1, normPropEntry kv.2))))
      exact lookupKey_setKey_self _ _ _
    · intro k v hkv hnobj
      rw [hnp, lookupKey_map_normPropEntry ps k v hkv]
      have hv : normPropEntry v = Json.obj [("type", Json.str "string")] := by
        cases v with
        | obj l2 => exact absurd rfl (hnobj l2)
        | null => rfl
        | bool b => rfl
        | num n => rfl
        | str s2 => rfl
        | arr xs => rfl
      rw [hv]
    · intro k p hkp hnone
      constructor
      · rw [hnp, lookupKey_map_normPropEntry ps k (Json.obj p) hkp]
        rfl
      · exact normPropDict_type_default p hnone
    · intro k p hkp harrty
      refine ⟨?_, ?_, ?_⟩
      · rw [hnp, lookupKey_map_normPropEntry ps k (Json.obj p) hkp]
        rfl
      · exact (normPropDict_array_items_default p harrty).1
      · exact (normPropDict_array_items_default p harrty).2

/-- The malformed schema exercising every defaulting branch: a non-mapping
property, an untyped property, an array property without `items`, and an
array property with untyped `items`. -/
def messySchema : Json :=
  Json.obj [("properties", Json.obj [
    ("a", Json.str "notamapping"),
    ("b", Json.obj []),
    ("c", Json.obj [("type", Json.str "array")]),
    ("d", Json.obj [("type", Json.str "array"), ("items", Json.obj [])])])]

/-- Witness for C8 at `messySchema` (and, for the empty-properties branch,
at the empty schema `{}`). -/
theorem normalize_total_guarantees_witness :
    normalizedOk (_normalize_json_schema messySchema) = true
    ∧ lookupKey (schemaEntries (_normalize_json_schema messySchema)) "type"
        = some (Json.str "object")
    ∧ lookupKey (schemaEntries (_normalize_json_schema (Json.obj []))) "properties"
        = some (Json.obj [])
    ∧ (∃ outPs, lookupKey (schemaEntries (_normalize_json_schema messySchema)) "properties"
          = some (Json.obj outPs)
        ∧ lookupKey outPs "a" = some (Json.obj [("type", Json.str "string")])
        ∧ lookupKey outPs "b" = some (Json.obj [("type", Json.str "string")])
        ∧ lookupKey (normPropDict [("type", Json.str "array")]) "items"
            = some (Json.obj [("type", Json.str "string")])
        ∧ lookupKey (normPropDict [("type", Json.str "array"), ("items", Json.obj [])]) "items"
            = some (Json.obj [("type", Json.str "string")])) := by
  obtain ⟨h1, h2, _, h4⟩ := normalize_total_guarantees messySchema
  obtain ⟨outPs, ho, hnm, hunt, harr⟩ := h4
    [("a", Json.str "notamapping"),
     ("b", Json.obj []),
     ("c", Json.obj [("type", Json.str "array")]),
     ("d", Json.obj [("type", Json.str "array"), ("items", Json.obj [])])] rfl
  refine ⟨h1, h2 (by decide), ?_, outPs, ho, ?_, ?_, ?_, ?_⟩
  · exact (normalize_total_guarantees (Json.obj [])).2.2.1 (fun ps h => Option.noConfusion h)
  · exact hnm "a" (Json.str "notamapping") (by decide) (fun l2 h => Json.noConfusion h)
  · have hb := hunt "b" [] (by decide) (by decide)
    exact hb.1
  · exact (harr "c" [("type", Json.str "array")] (by decide) (by decide)).2.1
      (fun its h => Option.noConfusion h)
  · exact (harr "d" [("type", Json.str "array"), ("items", Json.obj [])] (by decide)
      (by decide)).2.2 [] (by decide) (by decide)

/-! ## C7: the mutation effect of normalization on its input

`_normalize_json_schema` starts with `norm = dict(schema)`, a **shallow**
copy (util.py line 89). Root-level assignments (`norm["type"]`,
`norm["properties"]`) therefore hit only the copy. But when the input has a
mapping-valued `properties`, `props = norm["properties"]` aliases the
input's own properties dict, and the per-property loop (lines 96-108)
mutates that dict (`props[key] = {"type": "string"}`) and its nested
per-property dicts (`prop["type"] = ...`, `prop["items"] = ...`) in place.
-/

/-- Modelled state of the input schema after `_normalize_json_schema`
returns: unchanged unless the input is a mapping with a mapping-valued
`properties`, in which case the shared properties dict now holds the
normalized property entries. -/
def input_after_normalize (schema : Json) : Json :=
  match schema with
  | .obj l =>
    match lookupKey l "properties" with
    | some (.obj ps) =>
        .obj (setKey l "properties" (Json.obj (ps.map (fun kv => (kv.1, normPropEntry kv.2)))))
    | _ => schema
  | _ => schema

/-- C7 (counterexample): the claim "the input schema, including its nested
per-property sub-objects, is unchanged after normalize returns" is false:
for the input `{"properties": {"a": {}}}` the shared properties dict is
mutated in place, its entry `a` gaining `"type": "string"`. -/
theorem normalize_mutates_nested_input :
    input_after_normalize (Json.obj [("properties", Json.obj [("a", Json.obj [])])])
      ≠ Json.obj [("properties", Json.obj [("a", Json.obj [])])] := by
  decide

/-- C7 (amended): normalization never rebinds root-level keys of the input
(in particular the input's root `type` binding is unchanged), and it leaves
the input completely unchanged whenever the input's `properties` is absent
or not a mapping; when `properties` is a mapping, its per-property entries
are normalized in place. -/
theorem normalize_input_effect (s : Json) :
    lookupKey (schemaEntries (input_after_normalize s)) "type"
        = lookupKey (schemaEntries s) "type"
    ∧ ((∀ ps, lookupKey (schemaEntries s) "properties" ≠ some (Json.obj ps)) →
        input_after_normalize s = s)
    ∧ (∀ l ps, s = Json.obj l → lookupKey l "properties" = some (Json.obj ps) →
        input_after_normalize s
          = Json.obj (setKey l "properties"
              (Json.obj (ps.map (fun kv => (kv.1, normPropEntry kv.2)))))) := by
  refine ⟨?_, ?_, ?_⟩
  · cases s with
    | obj l =>
      show lookupKey (schemaEntries (input_after_normalize (Json.obj l))) "type"
        = lookupKey l "type"
      cases hlp : lookupKey l "properties" with
      | none => simp [input_after_normalize, hlp, schemaEntries]
      | some v =>
        cases v with
        | obj ps =>
          simp only [input_after_normalize, hlp, schemaEntries]
          exact lookupKey_setKey_ne _ _ _ _ (by decide)
        | null => simp [input_after_normalize, hlp, schemaEntries]
        | bool b => simp [input_after_normalize, hlp, schemaEntries]
        | num n => simp [input_after_normalize, hlp, schemaEntries]
        | str s => simp [input_after_normalize, hlp, schemaEntries]
        | arr xs => simp [input_after_normalize, hlp, schemaEntries]
    | null => rfl
    | bool b => rfl
    | num n => rfl
    | str s => rfl
    | arr xs => rfl
  · intro hp
    cases s with
    | obj l =>
      have hl : ∀ ps, lookupKey l "properties" ≠ some (Json.obj ps) := hp
      cases hlp : lookupKey l "properties" with
      | none => simp [input_after_normalize, hlp]
      | some v =>
        cases v with
        | obj ps => exact absurd hlp (hl ps)
        | null => simp [input_after_normalize, hlp]
        | bool b => simp [input_after_normalize, hlp]
        | num n => simp [input_after_normalize, hlp]
        | str s => simp [input_after_normalize, hlp]
        | arr xs => simp [input_after_normalize, hlp]
    | null => rfl
    | bool b => rfl
    | num n => rfl
    | str s => rfl
    | arr xs => rfl
  · intro l ps hs hlp
    subst hs
    simp [input_after_normalize, hlp]

/-- Witness for C7 (amended) at a schema without a mapping-valued
`properties` and at one with. -/
theorem normalize_input_effect_witness :
    input_after_normalize (Json.obj [("type", Json.str "object")])
        = Json.obj [("type", Json.str "object")]
    ∧ input_after_normalize (Json.obj [("properties", Json.obj [("a", Json.obj [])])])
        = Json.obj [("properties",
            Json.obj [("a", Json.obj [("type", Json.str "string")])])] := by
  constructor
  · exact (normalize_input_effect (Json.obj [("type", Json.str "object")])).2.1
      (fun ps h => Option.noConfusion h)
  · have h := (normalize_input_effect
      (Json.obj [("properties", Json.obj [("a", Json.obj [])])])).2.2
      [("properties", Json.obj [("a", Json.obj [])])] [("a", Json.obj [])] rfl (by decide)
    rw [h]
    decide

/-! ## Tool invocation (`invoke_tool` inside `MCPUtil.to_function_tool`,
util.py lines 40-76) -/

def jsonEscapeChar (c : Char) : String :=
  if c = '"' then "\\\""
  else if c = '\\' then "\\\\"
  else if c = '\n' then "\\n"
  else if c = '\t' then "\\t"
  else if c = '\r' then "\\r"
  else String.singleton c

def jsonEscape (s : String) : String :=
  String.join (s.data.map jsonEscapeChar)

mutual

/-- `json.dumps` with the default separators. In the model every `Json`
value is serializable, so the `except TypeError` fallbacks to `str(...)`
in the source are unreachable. -/
def json_dumps : Json → String
  | .null => "null"
  | .bool b => if b then "true" else "false"
  | .num n => toString n
  | .str s => "\"" ++ jsonEscape s ++ "\""
  | .arr xs => "[" ++ json_dumps_list xs ++ "]"
  | .obj l => "\x7b" ++ json_dumps_obj l ++ "\x7d"

def json_dumps_list : List Json → String
  | [] => ""
  | [x] => json_dumps x
  | x :: y :: t => json_dumps x ++ ", " ++ json_dumps_list (y :: t)

def json_dumps_obj : List (String × Json) → String
  | [] => ""
  | [(k, v)] => "\"" ++ jsonEscape k ++ "\": " ++ json_dumps v
  | (k, v) :: e :: t =>
      "\"" ++ jsonEscape k ++ "\": " ++ json_dumps v ++ ", " ++ json_dumps_obj (e :: t)

end

/-- `str(content_item)` for the scalar types the source singles out with
`isinstance(content_item, (str, int, float, bool))`; `none` for the
non-scalar types (dict, list) and for `None`. -/
def pyScalarStr : Json → Option String
  | .str s => some s
  | .num n => some (toString n)
  | .bool b => some (if b then "True" else "False")
  | _ => none

/-- Substring test on character lists (Python `needle in haystack` for
strings). -/
def listContainsSub : List Char → List Char → Bool
  | n, [] => n.isEmpty
  | n, c :: t => n.isPrefixOf (c :: t) || listContainsSub n t

/-- Conversion of a tool-call result to the returned string (util.py lines
48-73), run inside the same `try` as the remote call, so a conversion
failure is reported through `Except.error` and caught by the caller.
When `result` is a mapping: a `content` list with one scalar item becomes
`str(item)`, one non-scalar item becomes its JSON dump, two or more items
become the JSON dump of the list; a missing, non-list or empty `content`
yields the JSON dump of the whole result. When `result` is not a mapping,
Python evaluates `"content" in result` by membership (lists), substring
(strings), or raises `TypeError` (numbers, booleans, `None`), and indexing
a non-mapping with a string raises `TypeError`. -/
def convert_result (result : Json) : Except String String :=
  match result with
  | .obj l =>
    match lookupKey l "content" with
    | some (.arr (item :: rest)) =>
      if rest.isEmpty then
        match pyScalarStr item with
        | some s => .ok s
        | none => .ok (json_dumps item)
      else .ok (json_dumps (Json.arr (item :: rest)))
    | _ => .ok (json_dumps result)
  | .arr xs =>
    if xs.contains (Json.str "content") then .error "TypeError: list indices must be integers"
    else .ok (json_dumps result)
  | .str s =>
    if listContainsSub "content".data s.data then
      .error "TypeError: string indices must be integers"
    else .ok (json_dumps result)
  | _ => .error "TypeError: argument of type is not iterable"

/-- The `invoke_tool` closure (util.py lines 40-76). `input_parse` is the
outcome of `json.loads(input_json) if input_json else {}` (an empty input
parses as the empty mapping, so it lands in `.ok`); `call_result` is the
outcome of `await server.call_tool(...)` (`.error` when the call raised).
Every failure path returns a string; nothing propagates. -/
def invoke_tool (current_tool_name : String)
    (input_parse : Except String (List (String × Json)))
    (call_result : Except String Json) : String :=
  match input_parse with
  | .error e => "Error parsing input JSON for tool '" ++ current_tool_name ++ "': " ++ e
  | .ok _ =>
    match call_result with
    | .error e => "Error calling tool '" ++ current_tool_name ++ "': " ++ e
    | .ok result =>
      match convert_result result with
      | .ok s => s
      | .error e => "Error calling tool '" ++ current_tool_name ++ "': " ++ e

/-- C1: `invoke` always returns a string (it is a total function into
`String`), and on every failure path — unparseable incoming arguments,
an exception raised by the bound remote `call_tool`, or an exception while
converting the result — the returned string is an error indication rather
than a propagated exception. -/
theorem invoke_tool_never_throws (name e : String) (args : List (String × Json))
    (call : Except String Json) (result : Json) :
    invoke_tool name (.error e) call
        = "Error parsing input JSON for tool '" ++ name ++ "': " ++ e
    ∧ invoke_tool name (.ok args) (.error e)
        = "Error calling tool '" ++ name ++ "': " ++ e
    ∧ (∀ e2, convert_result result = .error e2 →
        invoke_tool name (.ok args) (.ok result)
          = "Error calling tool '" ++ name ++ "': " ++ e2) := by
  refine ⟨rfl, rfl, ?_⟩
  intro e2 h
  simp [invoke_tool, h]

/-- Witness for C1 at concrete inputs, including a result whose conversion
raises. -/
theorem invoke_tool_never_throws_witness :
    invoke_tool "t" (.error "boom") (.ok Json.null)
        = "Error parsing input JSON for tool 't': boom"
    ∧ invoke_tool "t" (.ok []) (.error "boom")
        = "Error calling tool 't': boom"
    ∧ invoke_tool "t" (.ok []) (.ok (Json.num 5))
        = "Error calling tool 't': TypeError: argument of type is not iterable" := by
  obtain ⟨h1, h2, h3⟩ := invoke_tool_never_throws "t" "boom" [] (.ok Json.null) (Json.num 5)
  exact ⟨h1, h2, h3 "TypeError: argument of type is not iterable" rfl⟩

/-- C10: when the result mapping carries a `content` key whose value is an
empty list or not a list at all, `invoke` returns the JSON stringification
of the entire result object; the single- and multi-item conversions apply
only to a non-empty content list. -/
theorem convert_result_empty_content (l : List (String × Json)) (c : Json)
    (hc : lookupKey l "content" = some c)
    (hnl : ∀ xs, c = Json.arr xs → xs = []) :
    convert_result (Json.obj l) = .ok (json_dumps (Json.obj l)) := by
  cases c with
  | arr xs =>
    have hx : xs = [] := hnl xs rfl
    subst hx
    simp [convert_result, hc]
  | null => simp [convert_result, hc]
  | bool b => simp [convert_result, hc]
  | num n => simp [convert_result, hc]
  | str s => simp [convert_result, hc]
  | obj l2 => simp [convert_result, hc]

/-- Witness for C10 at a result with an empty content list and at one whose
content is not a list. -/
theorem convert_result_empty_content_witness :
    convert_result (Json.obj [("content", Json.arr [])])
        = .ok (json_dumps (Json.obj [("content", Json.arr [])]))
    ∧ convert_result (Json.obj [("content", Json.str "x")])
        = .ok (json_dumps (Json.obj [("content", Json.str "x")])) := by
  constructor
  · exact convert_result_empty_content [("content", Json.arr [])] (Json.arr [])
      (by decide) (fun xs h => by injection h; simp_all)
  · exact convert_result_empty_content [("content", Json.str "x")] (Json.str "x")
      (by decide) (fun xs h => Json.noConfusion h)

/-! ## Tool structures (`FunctionTool`, util.py lines 11-20; MCP tool
definitions as listed by a server) -/

structure FunctionTool where
  name : String
  description : String
  params_json_schema : Json
  strict_json_schema : Bool

/-- A tool as reported by `server.list_tools()`: `inputSchema` is
`Json.null` when the server sent `None`. -/
structure ToolDef where
  name : String
  description : String
  inputSchema : Json

/-- `MCPUtil.to_function_tool` (util.py lines 33-37, 78-84) restricted to
the data the claims depend on: `schema = tool.inputSchema or {}`,
normalized when `convert_schemas_to_strict`. -/
def to_function_tool (convert_schemas_to_strict : Bool) (tool : ToolDef) : FunctionTool :=
  { name := tool.name,
    description := tool.description,
    params_json_schema :=
      (if convert_schemas_to_strict then _normalize_json_schema else id)
        (if tool.inputSchema.pythonFalsy then Json.obj [] else tool.inputSchema),
    strict_json_schema := convert_schemas_to_strict }

/-- `MCPUtil.get_function_tools` (util.py lines 23-30). -/
def get_function_tools (convert_schemas_to_strict : Bool) (tools : List ToolDef) :
    List FunctionTool :=
  tools.map (to_function_tool convert_schemas_to_strict)

/-! ## Synthesis (`MCPToolsIntegration`, agent_tools.py) -/

/-- ASCII approximation of `str.isidentifier()`, the check
`inspect.Parameter` performs on a parameter name (a non-identifier name
raises `ValueError`). -/
def isPythonIdent (s : String) : Bool :=
  match s.data with
  | [] => false
  | c :: cs => (c.isAlpha || c == '_') && cs.all (fun d => d.isAlphanum || d == '_')

/-- Extraction of `tool.params_json_schema.get("properties", {})` followed
by iterating `.items()`: raises (`AttributeError`) when the schema itself
or a present `properties` value is not a mapping. -/
def propsOfSchema (schema : Json) : Except String (List (String × Json)) :=
  match schema with
  | .obj l =>
    match getD l "properties" (Json.obj []) with
    | .obj ps => .ok ps
    | _ => .error "AttributeError: properties is not a mapping"
  | _ => .error "AttributeError: schema is not a mapping"

/-- The per-property work both synthesis paths perform while building the
parameter list (agent_tools.py lines 131-164 and 204-222): `p_details.get`
raises `AttributeError` on a non-mapping value, `inspect.Parameter(name=...)`
raises `ValueError` on a non-identifier name, and for an array-typed
property `(p_details.get("items") or {}).get("type", "string")` raises
`AttributeError` when `items` is a truthy non-mapping. Both paths succeed
or fail on exactly the same properties. -/
def prop_signature_ok (pName : String) (pDetails : Json) : Bool :=
  match pDetails with
  | .obj d =>
    isPythonIdent pName &&
      (if getD d "type" Json.null = Json.str "array" then
        (match (if (getD d "items" Json.null).pythonFalsy then Json.obj []
                else getD d "items" Json.null) with
         | .obj _ => true
         | _ => false)
      else true)
  | _ => false

/-- `set(tool.params_json_schema.get("required", []))` (agent_tools.py line
122): iterating a non-iterable raises `TypeError`, and so does hashing a
list/dict element. Strings and mappings are iterable (over characters and
keys). Only the strict path evaluates this. -/
def required_ok (schema : Json) : Bool :=
  match schema with
  | .obj l =>
    match getD l "required" (Json.arr []) with
    | .arr xs => xs.all (fun x => match x with
        | .arr _ => false
        | .obj _ => false
        | _ => true)
    | .str _ => true
    | .obj _ => true
    | _ => false
  | _ => false

inductive SynthKind where
  | strict
  | fallback
deriving DecidableEq

/-- The data of a synthesized callable tool that the claims depend on:
which synthesis path built it, its identity, and — for the fallback path —
the schema properties and alias map its `tool_impl` closure captured. -/
structure PreparedTool where
  kind : SynthKind
  name : String
  description : String
  schemaProps : List (String × Json)
  aliasMap : List (String × String)
deriving DecidableEq

/-- `MCPToolsIntegration._create_decorated_tool` (agent_tools.py lines
103-181): strict synthesis. Fails when parameter construction raises. -/
def _create_decorated_tool (t : FunctionTool) : Except String PreparedTool :=
  match propsOfSchema t.params_json_schema with
  | .error e => .error e
  | .ok ps =>
    if required_ok t.params_json_schema then
      if ps.all (fun kv => prop_signature_ok kv.1 kv.2) then
        .ok { kind := .strict, name := t.name, description := t.description,
              schemaProps := ps, aliasMap := [] }
      else .error "ValueError or AttributeError while building parameters"
    else .error "TypeError from set() over required"

/-! ### Alias computation (`_build_alias_map`, agent_tools.py lines 225-257) -/

def lookupStr (l : List (String × String)) (k : String) : Option String :=
  match l with
  | [] => none
  | (k', v) :: t => if k' = k then some v else lookupStr t k

def setStr (l : List (String × String)) (k : String) (v : String) : List (String × String) :=
  match l with
  | [] => [(k, v)]
  | (k', v') :: t => if k' = k then (k, v) :: t else (k', v') :: setStr t k v

/-- `aliases.setdefault(a, canonical)`: insert only when the key is absent. -/
def setdefaultStr (l : List (String × String)) (k : String) (v : String) :
    List (String × String) :=
  match lookupStr l k with
  | some _ => l
  | none => l ++ [(k, v)]

/-- `str.lower()` (ASCII, which covers every key in the fixed rule
table). -/
def strToLower (s : String) : String := String.mk (s.data.map Char.toLower)

/-- `lower_map = dict((k.lower(), k) for k in canonical_keys)`. The source
iterates a Python set; the model iterates the properties mapping's key list
in insertion order as a deterministic stand-in (no claim depends on which
representative survives a lowercase collision). -/
def lowerMap (keys : List String) : List (String × String) :=
  keys.foldl (fun m k => setStr m (strToLower k) k) []

/-- The inner `add(canonical, *alias_names)` (agent_tools.py lines
229-234): a no-op unless `canonical` is a canonical key; records each alias
name that is not itself a canonical key, first writer wins. -/
def addAliases (canonicalKeys : List String) (aliases : List (String × String))
    (canonical : String) (names : List String) : List (String × String) :=
  if canonical ∈ canonicalKeys then
    names.foldl
      (fun acc a => if a ∈ canonicalKeys then acc else setdefaultStr acc a canonical)
      aliases
  else aliases

/-- One `if x in lower_map: add(lower_map[x], ...)` step. -/
def aliasStep (canonicalKeys : List String) (aliases : List (String × String))
    (o : Option String) (names : List String) : List (String × String) :=
  match o with
  | some c => addAliases canonicalKeys aliases c names
  | none => aliases

/-- `_build_alias_map(tool_name, schema)` (agent_tools.py lines 225-257):
the fixed rule table, applied in source order (text, markdown_text, title,
document_id, to, subject, body). -/
def _build_alias_map (tool_name : String) (schema : List (String × Json)) :
    List (String × String) :=
  let ck := schema.map (fun kv => kv.1)
  let lm := lowerMap ck
  aliasStep ck (aliasStep ck (aliasStep ck (aliasStep ck (aliasStep ck (aliasStep ck
    (aliasStep ck []
      (lookupStr lm "text") ["content", "body", "markdown", "markdown_text"])
      (lookupStr lm "markdown_text") ["markdown", "md", "content", "text"])
      (lookupStr lm "title") ["name", "subject"])
      (lookupStr lm "document_id") ["doc_id", "documentId", "docId", "id"])
      (lookupStr lm "to") ["recipient", "email", "to_email", "recipients"])
      (lookupStr lm "subject") ["title", "topic"])
      (lookupStr lm "body") ["content", "text", "message"]

/-- `MCPToolsIntegration._create_fallback_tool` (agent_tools.py lines
184-295): permissive synthesis; captures the schema properties and the
alias map for its `tool_impl` closure. Fails when parameter construction
raises (same per-property conditions as the strict path; alias parameter
names are fixed valid identifiers). -/
def _create_fallback_tool (t : FunctionTool) : Except String PreparedTool :=
  match propsOfSchema t.params_json_schema with
  | .error e => .error e
  | .ok ps =>
    if ps.all (fun kv => prop_signature_ok kv.1 kv.2) then
      .ok { kind := .fallback, name := t.name, description := t.description,
            schemaProps := ps, aliasMap := _build_alias_map t.name ps }
    else .error "ValueError or AttributeError while building parameters"

/-- The payload computation of the fallback `tool_impl` (agent_tools.py
lines 270-281): drop null-valued keyword arguments, copy canonical keys
first, then fill each still-missing canonical key from its first supplied
alias. -/
def fallback_payload (schemaProps : List (String × Json))
    (aliasMap : List (String × String)) (kwargs : List (String × Json)) :
    List (String × Json) :=
  let raw := kwargs.filter (fun kv => !(kv.2.isNull))
  let payload0 := schemaProps.foldl
    (fun pl kv =>
      match lookupKey raw kv.1 with
      | some v => setKey pl kv.1 v
      | none => pl) []
  aliasMap.foldl
    (fun pl ac =>
      match lookupKey pl ac.2 with
      | some _ => pl
      | none =>
        match lookupKey raw ac.1 with
        | some v => setKey pl ac.2 v
        | none => pl) payload0

/-- The payload a fallback `PreparedTool`'s `tool_impl` serializes and
sends to the remote call for given keyword arguments. -/
def fallback_tool_payload (ft : PreparedTool) (kwargs : List (String × Json)) :
    List (String × Json) :=
  fallback_payload ft.schemaProps ft.aliasMap kwargs

/-! ### Routing (`prepare_dynamic_tools`, agent_tools.py lines 23-101) -/

/-- `fallback_trigger_keys = {"text", "markdown_text", "body"}`. -/
def fallback_trigger_keys : List String := ["text", "markdown_text", "body"]

/-- `set((tool_instance.params_json_schema or {}).get("properties", {}).keys())`
(agent_tools.py line 70): evaluated outside any `try`, so an
`AttributeError` (non-mapping schema after `or {}`, or `.keys()` on a
non-mapping `properties`) propagates out of `prepare_dynamic_tools`. -/
def schemaKeysE (schema : Json) : Except String (List String) :=
  match (if schema.pythonFalsy then Json.obj [] else schema) with
  | .obj l =>
    match getD l "properties" (Json.obj []) with
    | .obj ps => .ok (ps.map (fun kv => kv.1))
    | _ => .error "AttributeError: keys on a non-mapping properties"
  | _ => .error "AttributeError: get on a non-mapping schema"

/-- The strict-first path of the per-tool loop (agent_tools.py lines
83-99): try strict synthesis; on failure try fallback synthesis; on a
second failure drop the tool (`none`). -/
def prepareToolRest (t : FunctionTool) : Option PreparedTool :=
  match _create_decorated_tool t with
  | .ok dt => some dt
  | .error _ =>
    match _create_fallback_tool t with
    | .ok ft => some ft
    | .error _ => none

/-- One iteration of the per-tool loop (agent_tools.py lines 65-99): when
the schema's property names meet the trigger set, attempt the fallback
first (`continue` on success; on failure fall through to the strict-first
path); otherwise take the strict-first path directly. -/
def prepareTool (t : FunctionTool) : Except String (Option PreparedTool) :=
  match schemaKeysE t.params_json_schema with
  | .error e => .error e
  | .ok keys =>
    if keys.any (fun k => fallback_trigger_keys.contains k) then
      match _create_fallback_tool t with
      | .ok ft => .ok (some ft)
      | .error _ => .ok (prepareToolRest t)
    else .ok (prepareToolRest t)

def prepareToolsLoop : List FunctionTool → Except String (List PreparedTool)
  | [] => .ok []
  | t :: ts =>
    match prepareTool t with
    | .error e => .error e
    | .ok none => prepareToolsLoop ts
    | .ok (some pt) =>
      match prepareToolsLoop ts with
      | .error e => .error e
      | .ok l => .ok (pt :: l)

/-- `MAX_TOOLS_PER_SERVER = 100` (agent_tools.py line 64). -/
def MAX_TOOLS_PER_SERVER : Nat := 100

/-- The tools one server contributes (agent_tools.py lines 62-99): truncate
the fetched list to the first `MAX_TOOLS_PER_SERVER` before synthesis. -/
def prepareServerTools (mcp_tools : List FunctionTool) : Except String (List PreparedTool) :=
  prepareToolsLoop (mcp_tools.take MAX_TOOLS_PER_SERVER)

/-- One server as `prepare_dynamic_tools` sees it: the outcome of
`MCPUtil.get_function_tools` after auto-connect (`.error` when fetching
raised; that server is skipped with a log). -/
structure MCPServerModel where
  name : String
  listResult : Except String (List ToolDef)

/-- `MCPToolsIntegration.prepare_dynamic_tools` (agent_tools.py lines
23-101): per server, fetch (skip the server on failure), normalize per
`convert_schemas_to_strict`, truncate, synthesize; an exception escaping
the per-tool routing line propagates. -/
def prepare_dynamic_tools (mcp_servers : List MCPServerModel)
    (convert_schemas_to_strict : Bool) : Except String (List PreparedTool) :=
  mcp_servers.foldlM
    (fun acc s =>
      match s.listResult with
      | .error _ => .ok acc
      | .ok tools =>
        match prepareServerTools (get_function_tools convert_schemas_to_strict tools) with
        | .error e => .error e
        | .ok pts => .ok (acc ++ pts)) []

/-! ### Registration cap (`register_with_agent`, agent_tools.py lines
302-340) -/

/-- `BASE_LIMIT = 120` (agent_tools.py line 327). -/
def BASE_LIMIT : Int := 120

/-- The mutation `register_with_agent` performs on `agent._tools` (lines
326-331): `available_slots = max(0, BASE_LIMIT - len(agent._tools))`, then
extend with `tools[:available_slots]`. Returns the agent's new tool list
and the sublist that was appended. -/
def register_with_agent {α : Type} (agentTools : List α) (tools : List α) :
    List α × List α :=
  let available_slots : Int := max 0 (BASE_LIMIT - (agentTools.length : Int))
  let tools_to_add := tools.take available_slots.toNat
  (agentTools ++ tools_to_add, tools_to_add)

/-! ## C3: the spec's end-to-end send_email scenario -/

def sendEmailProps : List (String × Json) :=
  [("to", Json.obj [("type", Json.str "string")]),
   ("subject", Json.obj [("type", Json.str "string")]),
   ("body", Json.obj [("type", Json.str "string")])]

def sendEmailSchema : Json :=
  Json.obj [("type", Json.str "object"),
    ("properties", Json.obj sendEmailProps),
    ("required", Json.arr [Json.str "to", Json.str "body"])]

def sendEmailTool : FunctionTool :=
  { name := "send_email", description := "Send an email",
    params_json_schema := sendEmailSchema, strict_json_schema := true }

/-- The fallback tool the model synthesizes for `send_email`: the alias map
lists, in source rule order, the aliases triggered by the canonical keys
`to`, `subject` and `body`. -/
def sendEmailFallback : PreparedTool :=
  { kind := .fallback, name := "send_email", description := "Send an email",
    schemaProps := sendEmailProps,
    aliasMap := [("recipient", "to"), ("email", "to"), ("to_email", "to"),
                 ("recipients", "to"), ("title", "subject"), ("topic", "subject"),
                 ("content", "body"), ("text", "body"), ("message", "body")] }

/-- C3: for the `send_email` tool (properties `to`, `subject`, `body`,
required `to`, `body`), the Registration Coordinator selects fallback
synthesis because `body` is a trigger key, and invoking the fallback tool
with `recipient="a@b.com"`, `content="hi"`, `to=None` sends exactly the
payload `to="a@b.com"`, `body="hi"`: the null argument is dropped and the
aliases `recipient` and `content` are remapped to `to` and `body`. -/
theorem send_email_end_to_end :
    prepareTool sendEmailTool = .ok (some sendEmailFallback)
    ∧ sendEmailFallback.kind = SynthKind.fallback
    ∧ fallback_tool_payload sendEmailFallback
        [("recipient", Json.str "a@b.com"), ("content", Json.str "hi"), ("to", Json.null)]
      = [("to", Json.str "a@b.com"), ("body", Json.str "hi")] := by
  refine ⟨?_, rfl, ?_⟩
  · rfl
  · rfl

/-! ## C6: per-server cap -/

theorem prepareToolsLoop_length (ts : List FunctionTool)
    (h : ∀ t ∈ ts, ∃ pt, prepareTool t = .ok (some pt)) :
    ∃ l, prepareToolsLoop ts = .ok l ∧ l.length = ts.length := by
  induction ts with
  | nil => exact ⟨[], rfl, rfl⟩
  | cons t ts ih =>
    obtain ⟨pt, hpt⟩ := h t (by simp)
    obtain ⟨l, hl, hlen⟩ := ih (fun t2 ht2 => h t2 (by simp [ht2]))
    refine ⟨pt :: l, ?_, by simp [hlen]⟩
    unfold prepareToolsLoop
    rw [hpt, hl]

/-- C6: each server contributes only its first `MAX_TOOLS_PER_SERVER = 100`
discovered tools — the synthesis loop runs on the truncated list, so a
server reporting 150 tools (each synthesizable) contributes exactly 100
prepared tools, and tools beyond the cap are dropped. -/
theorem per_server_cap (ts : List FunctionTool)
    (hlen : ts.length = 150)
    (hok : ∀ t ∈ ts, ∃ pt, prepareTool t = .ok (some pt)) :
    (∃ l, prepareServerTools ts = .ok l ∧ l.length = 100)
    ∧ prepareServerTools ts = prepareServerTools (ts.take MAX_TOOLS_PER_SERVER) := by
  constructor
  · have h1 : (ts.take MAX_TOOLS_PER_SERVER).length = 100 := by
      simp [MAX_TOOLS_PER_SERVER, hlen]
    obtain ⟨l, hl, hlen2⟩ := prepareToolsLoop_length (ts.take MAX_TOOLS_PER_SERVER)
      (fun t ht => hok t (List.take_subset _ _ ht))
    exact ⟨l, hl, by rw [hlen2, h1]⟩
  · unfold prepareServerTools
    rw [List.take_take, min_self]

/-- A minimal tool every synthesis path accepts. -/
def plainTool : FunctionTool :=
  { name := "t0", description := "",
    params_json_schema := Json.obj [("type", Json.str "object"), ("properties", Json.obj [])],
    strict_json_schema := true }

/-- Witness for C6: 150 copies of a synthesizable tool yield exactly 100. -/
theorem per_server_cap_witness :
    (List.replicate 150 plainTool).length = 150
    ∧ (∃ l, prepareServerTools (List.replicate 150 plainTool) = .ok l ∧ l.length = 100) := by
  have h := per_server_cap (List.replicate 150 plainTool) (by simp)
    (fun t ht => by
      rw [List.eq_of_mem_replicate ht]
      exact ⟨{ kind := .strict, name := "t0", description := "",
               schemaProps := [], aliasMap := [] }, rfl⟩)
  exact ⟨by simp, h.1⟩

/-! ## C5: global cap at registration -/

/-- C5: `register_with_agent` appends only the first
`max(0, 120 - currentAgentToolCount)` prepared tools, in discovery order;
with 100 existing tools at most 20 are appended, and they are the first 20
prepared. -/
theorem global_registration_cap {α : Type} (agentTools tools : List α) :
    (register_with_agent agentTools tools).1
        = agentTools ++ tools.take (max 0 (BASE_LIMIT - (agentTools.length : Int))).toNat
    ∧ (agentTools.length = 100 →
        (register_with_agent agentTools tools).2 = tools.take 20
        ∧ (register_with_agent agentTools tools).2.length ≤ 20) := by
  refine ⟨rfl, ?_⟩
  intro h
  have hslots : (max 0 (BASE_LIMIT - ((agentTools.length : Int)))).toNat = 20 := by
    rw [h]
    rfl
  constructor
  · show tools.take (max 0 (BASE_LIMIT - ((agentTools.length : Int)))).toNat = tools.take 20
    rw [hslots]
  · show (tools.take (max 0 (BASE_LIMIT - ((agentTools.length : Int)))).toNat).length ≤ 20
    rw [hslots]
    simp [List.length_take]

/-- Witness for C5: an agent holding 100 tools gains exactly the first 20
of 50 prepared tools. -/
theorem global_registration_cap_witness :
    (List.replicate 100 (0 : Nat)).length = 100
    ∧ (register_with_agent (List.replicate 100 (0 : Nat)) (List.range 50)).2
        = (List.range 50).take 20
    ∧ (register_with_agent (List.replicate 100 (0 : Nat)) (List.range 50)).2.length ≤ 20 := by
  have h := (global_registration_cap (List.replicate 100 (0 : Nat)) (List.range 50)).2 (by simp)
  exact ⟨by simp, h.1, h.2⟩

/-! ## C2: trigger keys force the fallback path -/

/-- Whatever the fallback builder rejects, the strict builder rejects too:
the per-property checks are the same, and the strict path additionally
evaluates `set(...)` over `required`. -/
theorem strict_err_of_fallback_err (t : FunctionTool)
    (h : ∃ e, _create_fallback_tool t = .error e) :
    ∃ e, _create_decorated_tool t = .error e := by
  obtain ⟨e, he⟩ := h
  cases hp : propsOfSchema t.params_json_schema with
  | error e2 => exact ⟨e2, by simp [_create_decorated_tool, hp]⟩
  | ok ps =>
    simp only [_create_fallback_tool, hp] at he
    by_cases hall : (ps.all fun kv => prop_signature_ok kv.1 kv.2) = true
    · rw [if_pos hall] at he
      exact Except.noConfusion he
    · by_cases hreq : required_ok t.params_json_schema = true
      · exact ⟨_, by simp only [_create_decorated_tool, hp]; rw [if_pos hreq, if_neg hall]⟩
      · exact ⟨_, by simp only [_create_decorated_tool, hp]; rw [if_neg hreq]⟩

theorem fallback_tool_kind (t : FunctionTool) (ft : PreparedTool)
    (h : _create_fallback_tool t = .ok ft) : ft.kind = SynthKind.fallback := by
  cases hp : propsOfSchema t.params_json_schema with
  | error e => simp [_create_fallback_tool, hp] at h
  | ok ps =>
    simp only [_create_fallback_tool, hp] at h
    by_cases hall : (ps.all fun kv => prop_signature_ok kv.1 kv.2) = true
    · rw [if_pos hall] at h
      injection h with h1
      rw [← h1]
    · rw [if_neg hall] at h
      exact Except.noConfusion h

/-- When the trigger fires, the per-tool loop goes through the fallback
attempt first. -/
theorem prepareTool_triggered (t : FunctionTool) (keys : List String)
    (hkeys : schemaKeysE t.params_json_schema = .ok keys)
    (htrig : keys.any (fun k => fallback_trigger_keys.contains k) = true) :
    prepareTool t = (match _create_fallback_tool t with
      | .ok ft => .ok (some ft)
      | .error _ => .ok (prepareToolRest t)) := by
  simp only [prepareTool, hkeys]
  rw [if_pos htrig]

/-- C2: whenever the property-name set of a tool's (normalized) schema
meets the trigger set (`text`, `markdown_text`, `body`), the per-tool
routing goes to fallback synthesis and never produces a strict tool:
a successful fallback build is registered as-is, and if the fallback build
fails the strict build fails too, so no tool is registered at all. -/
theorem trigger_routes_to_fallback (t : FunctionTool) (keys : List String) (pt : PreparedTool)
    (hkeys : schemaKeysE t.params_json_schema = .ok keys)
    (htrig : keys.any (fun k => fallback_trigger_keys.contains k) = true) :
    (∀ ft, _create_fallback_tool t = .ok ft → prepareTool t = .ok (some ft))
    ∧ (prepareTool t = .ok (some pt) → pt.kind = SynthKind.fallback) := by
  constructor
  · intro ft hft
    rw [prepareTool_triggered t keys hkeys htrig, hft]
  · intro hpt
    rw [prepareTool_triggered t keys hkeys htrig] at hpt
    cases hfb : _create_fallback_tool t with
    | ok ft =>
      rw [hfb] at hpt
      injection hpt with h1
      injection h1 with h2
      rw [← h2]
      exact fallback_tool_kind t ft hfb
    | error e =>
      obtain ⟨e2, hdec⟩ := strict_err_of_fallback_err t ⟨e, hfb⟩
      have hrest : prepareToolRest t = none := by
        simp [prepareToolRest, hdec, hfb]
      rw [hfb, hrest] at hpt
      injection hpt with h1
      exact Option.noConfusion h1

/-- Witness for C2 at the `send_email` tool (its schema contains the
trigger key `body`). -/
theorem trigger_routes_to_fallback_witness :
    prepareTool sendEmailTool = .ok (some sendEmailFallback)
    ∧ sendEmailFallback.kind = SynthKind.fallback := by
  have h1 : prepareTool sendEmailTool = .ok (some sendEmailFallback) := rfl
  have h := trigger_routes_to_fallback sendEmailTool ["to", "subject", "body"]
    sendEmailFallback rfl (by decide)
  exact ⟨h1, h.2 h1⟩

/-! ## C9: fallback payload invariants -/

/-- The invariant of the computed alias map: every alias targets a
canonical key, and no alias name is itself a canonical key. -/
def aliasPairsOk (ck : List String) (am : List (String × String)) : Prop :=
  ∀ p ∈ am, p.2 ∈ ck ∧ p.1 ∉ ck

theorem setdefaultStr_pairsOk (ck : List String) (l : List (String × String)) (a c : String)
    (hl : aliasPairsOk ck l) (hc : c ∈ ck) (ha : a ∉ ck) :
    aliasPairsOk ck (setdefaultStr l a c) := by
  unfold setdefaultStr
  cases h0 : lookupStr l a with
  | some v => exact hl
  | none =>
    intro p hp
    rcases List.mem_append.mp hp with h | h
    · exact hl p h
    · have hpc : p = (a, c) := by simpa using h
      rw [hpc]
      exact ⟨hc, ha⟩

theorem foldl_setdefault_pairsOk (ck : List String) (c : String) (hc : c ∈ ck) :
    ∀ (ns : List String) (am : List (String × String)), aliasPairsOk ck am →
      aliasPairsOk ck (ns.foldl
        (fun acc a => if a ∈ ck then acc else setdefaultStr acc a c) am)
  | [], am, h => h
  | a :: t, am, h => by
    simp only [List.foldl_cons]
    by_cases ha : a ∈ ck
    · rw [if_pos ha]
      exact foldl_setdefault_pairsOk ck c hc t am h
    · rw [if_neg ha]
      exact foldl_setdefault_pairsOk ck c hc t _ (setdefaultStr_pairsOk ck am a c h hc ha)

theorem addAliases_pairsOk (ck : List String) (am : List (String × String)) (c : String)
    (ns : List String) (h : aliasPairsOk ck am) :
    aliasPairsOk ck (addAliases ck am c ns) := by
  unfold addAliases
  by_cases hc : c ∈ ck
  · rw [if_pos hc]
    exact foldl_setdefault_pairsOk ck c hc ns am h
  · rw [if_neg hc]
    exact h

theorem aliasStep_pairsOk (ck : List String) (am : List (String × String))
    (o : Option String) (ns : List String) (h : aliasPairsOk ck am) :
    aliasPairsOk ck (aliasStep ck am o ns) := by
  cases o with
  | none => exact h
  | some c => exact addAliases_pairsOk ck am c ns h

theorem build_alias_map_pairsOk (n : String) (schema : List (String × Json)) :
    aliasPairsOk (schema.map (fun kv => kv.1)) (_build_alias_map n schema) := by
  unfold _build_alias_map
  exact aliasStep_pairsOk _ _ _ _ (aliasStep_pairsOk _ _ _ _ (aliasStep_pairsOk _ _ _ _
    (aliasStep_pairsOk _ _ _ _ (aliasStep_pairsOk _ _ _ _ (aliasStep_pairsOk _ _ _ _
      (aliasStep_pairsOk _ _ _ _ (fun p hp => absurd hp (List.not_mem_nil p))))))))

theorem canon_fold_not_mem (raw : List (String × Json)) :
    ∀ (props : List (String × Json)) (acc : List (String × Json)) (k : String),
      k ∉ props.map (fun kv => kv.1) →
      lookupKey (props.foldl (fun pl kv =>
        match lookupKey raw kv.1 with
        | some v => setKey pl kv.1 v
        | none => pl) acc) k = lookupKey acc k := by
  intro props
  induction props with
  | nil => intro acc k h; rfl
  | cons kv t ih =>
    intro acc k h
    simp only [List.map_cons, List.mem_cons, not_or] at h
    obtain ⟨h1, h2⟩ := h
    simp only [List.foldl_cons]
    cases hr : lookupKey raw kv.1 with
    | none =>
      simp only [hr]
      exact ih acc k h2
    | some v =>
      simp only [hr]
      rw [ih _ k h2, lookupKey_setKey_ne _ _ _ _ (fun hh => h1 hh.symm)]

theorem canon_fold_mem (raw : List (String × Json)) :
    ∀ (props : List (String × Json)) (acc : List (String × Json)) (k : String) (v : Json),
      lookupKey raw k = some v → k ∈ props.map (fun kv => kv.1) →
      lookupKey (props.foldl (fun pl kv =>
        match lookupKey raw kv.1 with
        | some v => setKey pl kv.1 v
        | none => pl) acc) k = some v := by
  intro props
  induction props with
  | nil => intro acc k v hv h; exact absurd h (List.not_mem_nil k)
  | cons kv t ih =>
    intro acc k v hv h
    simp only [List.foldl_cons]
    by_cases hk : k ∈ t.map (fun kv => kv.1)
    · exact ih _ k v hv hk
    · have hhead : kv.1 = k := by
        simp only [List.map_cons, List.mem_cons] at h
        rcases h with h | h
        · exact h.symm
        · exact absurd h hk
      rw [hhead, hv]
      rw [canon_fold_not_mem raw t _ k hk, lookupKey_setKey_self]

theorem canon_fold_raw_none (raw : List (String × Json)) :
    ∀ (props : List (String × Json)) (acc : List (String × Json)) (k : String),
      lookupKey raw k = none →
      lookupKey (props.foldl (fun pl kv =>
        match lookupKey raw kv.1 with
        | some v => setKey pl kv.1 v
        | none => pl) acc) k = lookupKey acc k := by
  intro props
  induction props with
  | nil => intro acc k h; rfl
  | cons kv t ih =>
    intro acc k h
    simp only [List.foldl_cons]
    cases hr : lookupKey raw kv.1 with
    | none =>
      simp only [hr]
      exact ih acc k h
    | some v =>
      simp only [hr]
      have hne : kv.1 ≠ k := by
        intro he
        rw [he, h] at hr
        exact Option.noConfusion hr
      rw [ih _ k h, lookupKey_setKey_ne _ _ _ _ hne]

theorem alias_fold_preserve (raw : List (String × Json)) :
    ∀ (am : List (String × String)) (acc : List (String × Json)) (k : String) (v : Json),
      lookupKey acc k = some v →
      lookupKey (am.foldl (fun pl ac =>
        match lookupKey pl ac.2 with
        | some _ => pl
        | none =>
          match lookupKey raw ac.1 with
          | some v => setKey pl ac.2 v
          | none => pl) acc) k = some v := by
  intro am
  induction am with
  | nil => intro acc k v h; exact h
  | cons ac t ih =>
    intro acc k v h
    simp only [List.foldl_cons]
    cases h2 : lookupKey acc ac.2 with
    | some w =>
      simp only [h2]
      exact ih acc k v h
    | none =>
      simp only [h2]
      cases h3 : lookupKey raw ac.1 with
      | none => exact ih acc k v h
      | some v2 =>
        have hne : ac.2 ≠ k := by
          intro he
          rw [he, h] at h2
          exact Option.noConfusion h2
        exact ih _ k v (by rw [lookupKey_setKey_ne _ _ _ _ hne]; exact h)

theorem alias_fold_provenance (raw : List (String × Json)) :
    ∀ (am : List (String × String)) (acc : List (String × Json)) (k : String) (v : Json),
      lookupKey (am.foldl (fun pl ac =>
        match lookupKey pl ac.2 with
        | some _ => pl
        | none =>
          match lookupKey raw ac.1 with
          | some v => setKey pl ac.2 v
          | none => pl) acc) k = some v →
      lookupKey acc k = some v ∨ ∃ a, (a, k) ∈ am ∧ lookupKey raw a = some v := by
  intro am
  induction am with
  | nil => intro acc k v h; exact Or.inl h
  | cons ac t ih =>
    intro acc k v h
    simp only [List.foldl_cons] at h
    cases h2 : lookupKey acc ac.2 with
    | some w =>
      simp only [h2] at h
      rcases ih acc k v h with hl | ⟨a, ha, hv⟩
      · exact Or.inl hl
      · exact Or.inr ⟨a, List.mem_cons_of_mem _ ha, hv⟩
    | none =>
      simp only [h2] at h
      cases h3 : lookupKey raw ac.1 with
      | none =>
        simp only [h3] at h
        rcases ih acc k v h with hl | ⟨a, ha, hv⟩
        · exact Or.inl hl
        · exact Or.inr ⟨a, List.mem_cons_of_mem _ ha, hv⟩
      | some v2 =>
        simp only [h3] at h
        rcases ih _ k v h with hl | ⟨a, ha, hv⟩
        · by_cases hk : ac.2 = k
          · subst hk
            rw [lookupKey_setKey_self] at hl
            injection hl with hv2
            refine Or.inr ⟨ac.1, ?_, by rw [h3, hv2]⟩
            have : (ac.1, ac.2) = ac := rfl
            rw [this]
            exact List.mem_cons_self ac t
          · rw [lookupKey_setKey_ne _ _ _ _ hk] at hl
            exact Or.inl hl
        · exact Or.inr ⟨a, List.mem_cons_of_mem _ ha, hv⟩

theorem fallback_tool_fields (t : FunctionTool) (ft : PreparedTool)
    (h : _create_fallback_tool t = .ok ft) :
    ft.aliasMap = _build_alias_map t.name ft.schemaProps := by
  cases hp : propsOfSchema t.params_json_schema with
  | error e => simp [_create_fallback_tool, hp] at h
  | ok ps =>
    simp only [_create_fallback_tool, hp] at h
    by_cases hall : (ps.all fun kv => prop_signature_ok kv.1 kv.2) = true
    · rw [if_pos hall] at h
      injection h with h1
      rw [← h1]
    · rw [if_neg hall] at h
      exact Except.noConfusion h

theorem fallback_payload_eq (ps : List (String × Json)) (am : List (String × String))
    (kwargs : List (String × Json)) :
    fallback_payload ps am kwargs
      = am.foldl (fun pl ac =>
          match lookupKey pl ac.2 with
          | some _ => pl
          | none =>
            match lookupKey (kwargs.filter (fun kv => !(kv.2.isNull))) ac.1 with
            | some v => setKey pl ac.2 v
            | none => pl)
        (ps.foldl (fun pl kv =>
          match lookupKey (kwargs.filter (fun kv => !(kv.2.isNull))) kv.1 with
          | some v => setKey pl kv.1 v
          | none => pl) []) := rfl

/-- C9: for every fallback CallableTool and every keyword-argument list,
the payload sent to the remote call (i) holds only canonical schema
property names — an alias name never appears as a payload key —, (ii) keeps
every canonical argument that was supplied non-null (canonical wins over
any alias of the same key), and (iii) gets a value under a canonical key
that was not supplied only from one of that key's aliases. -/
theorem fallback_payload_invariants (t : FunctionTool) (ft : PreparedTool)
    (kwargs : List (String × Json))
    (hft : _create_fallback_tool t = .ok ft) :
    (∀ k v, lookupKey (fallback_tool_payload ft kwargs) k = some v →
        k ∈ ft.schemaProps.map (fun kv => kv.1))
    ∧ (∀ a c, (a, c) ∈ ft.aliasMap →
        lookupKey (fallback_tool_payload ft kwargs) a = none)
    ∧ (∀ k v, k ∈ ft.schemaProps.map (fun kv => kv.1) →
        lookupKey (kwargs.filter (fun kv => !(kv.2.isNull))) k = some v →
        lookupKey (fallback_tool_payload ft kwargs) k = some v)
    ∧ (∀ k v, lookupKey (fallback_tool_payload ft kwargs) k = some v →
        lookupKey (kwargs.filter (fun kv => !(kv.2.isNull))) k = none →
        ∃ a, (a, k) ∈ ft.aliasMap ∧
          lookupKey (kwargs.filter (fun kv => !(kv.2.isNull))) a = some v) := by
  have hpairs : aliasPairsOk (ft.schemaProps.map (fun kv => kv.1)) ft.aliasMap := by
    rw [fallback_tool_fields t ft hft]
    exact build_alias_map_pairsOk t.name ft.schemaProps
  have hmain : ∀ k v, lookupKey (fallback_tool_payload ft kwargs) k = some v →
      k ∈ ft.schemaProps.map (fun kv => kv.1) := by
    intro k v h
    rw [show fallback_tool_payload ft kwargs
        = fallback_payload ft.schemaProps ft.aliasMap kwargs from rfl,
      fallback_payload_eq] at h
    rcases alias_fold_provenance _ ft.aliasMap _ k v h with hl | ⟨a, ha, hv⟩
    · by_cases hk : k ∈ ft.schemaProps.map (fun kv => kv.1)
      · exact hk
      · rw [canon_fold_not_mem _ ft.schemaProps [] k hk] at hl
        exact Option.noConfusion hl
    · exact (hpairs (a, k) ha).1
  refine ⟨hmain, ?_, ?_, ?_⟩
  · intro a c hac
    cases hpa : lookupKey (fallback_tool_payload ft kwargs) a with
    | none => rfl
    | some v => exact absurd (hmain a v hpa) (hpairs (a, c) hac).2
  · intro k v hk hv
    rw [show fallback_tool_payload ft kwargs
        = fallback_payload ft.schemaProps ft.aliasMap kwargs from rfl,
      fallback_payload_eq]
    exact alias_fold_preserve _ ft.aliasMap _ k v
      (canon_fold_mem _ ft.schemaProps [] k v hv hk)
  · intro k v h hnone
    rw [show fallback_tool_payload ft kwargs
        = fallback_payload ft.schemaProps ft.aliasMap kwargs from rfl,
      fallback_payload_eq] at h
    rcases alias_fold_provenance _ ft.aliasMap _ k v h with hl | ⟨a, ha, hv⟩
    · rw [canon_fold_raw_none _ ft.schemaProps [] k hnone] at hl
      exact Option.noConfusion hl
    · exact ⟨a, ha, hv⟩

/-- Witness for C9 at the `send_email` fallback tool: the alias name
`recipient` never appears as a payload key, while its value lands under the
canonical key `to`. -/
theorem fallback_payload_invariants_witness :
    lookupKey (fallback_tool_payload sendEmailFallback
        [("recipient", Json.str "a@b.com")]) "recipient" = none
    ∧ lookupKey (fallback_tool_payload sendEmailFallback
        [("recipient", Json.str "a@b.com")]) "to" = some (Json.str "a@b.com") := by
  have h := fallback_payload_invariants sendEmailTool sendEmailFallback
    [("recipient", Json.str "a@b.com")] rfl
  exact ⟨h.2.1 "recipient" "to" (by decide), by decide⟩
